import Mathlib

/-!
Verification of the AI_Diplomacy session/negotiation core against its
natural-language specification.

The definitions below are a shallow embedding of the Python source:

* `CircuitBreaker`, `isOpenCheck`, `recordOperationSuccess`,
  `recordOperationFailure`, `runAttempts`, `retryWithBackoff` embed the
  class `CircuitBreaker` of `bot_client/src/utils.py` (lines 18-99).
* The negotiation repetition guard and round processing embed
  `conduct_negotiations` of `ai_diplomacy/negotiations.py` (lines 83-217).
* The single-bot round embeds `conduct_single_bot_negotiation` and
  `_send_negotiation_message` of `bot_client/src/websocket_negotiations.py`.
* The bot session state and its handlers embed `SingleBotPlayer` of
  `bot_client/src/single_bot_player.py`.

Network calls, the decision collaborator and wall-clock time are passed in
as explicit parameters (oracles), so every definition is executable.
-/

namespace AIDiplomacy

/-! ## Circuit breaker (bot_client/src/utils.py, class CircuitBreaker) -/

/-- Mutable state of `CircuitBreaker` (utils.py lines 19-32).
`openFlag` embeds the Python attribute `self.open` (renamed because `open`
is a Lean keyword).  Times and delays are modelled as rationals. -/
structure CircuitBreaker where
  connectionTimeout : ℚ := 30
  retryDelay : ℚ := 2
  maxRetries : Nat := 3
  lastSuccessfulOperation : ℚ := 0
  connectionFailures : Nat := 0
  openFlag : Bool := false
  lastFailure : ℚ := 0
  deriving Repr, DecidableEq

/-- The fixed cooldown `self.timeout = 60.0` (utils.py line 32). -/
def breakerTimeout : ℚ := 60

/-- Embeds `CircuitBreaker._is_open` (utils.py lines 34-45).  Returns the
boolean result together with the possibly mutated state: when the cooldown
has expired the method clears `self.open` as a side effect. -/
def isOpenCheck (cb : CircuitBreaker) (now : ℚ) : Bool × CircuitBreaker :=
  if cb.openFlag = false then (false, cb)
  else if now - cb.lastFailure > breakerTimeout then
    (false, { cb with openFlag := false })
  else (true, cb)

/-- Embeds `CircuitBreaker._record_operation_success` (utils.py lines 47-53). -/
def recordOperationSuccess (cb : CircuitBreaker) (now : ℚ) : CircuitBreaker :=
  { cb with
    lastSuccessfulOperation := now
    connectionFailures := 0
    openFlag := false }

/-- Embeds `CircuitBreaker._record_operation_failure` (utils.py lines 55-63):
increment the failure counter and open the breaker once it reaches 5. -/
def recordOperationFailure (cb : CircuitBreaker) (now : ℚ) : CircuitBreaker :=
  let failures := cb.connectionFailures + 1
  if 5 ≤ failures then
    { cb with connectionFailures := failures, openFlag := true, lastFailure := now }
  else
    { cb with connectionFailures := failures }

/-- Result of one `_retry_with_backoff` call (utils.py lines 65-99). -/
inductive RetryOutcome (α : Type) where
  | circuitOpen
  | success (a : α)
  | exhausted
  deriving Repr, DecidableEq

/-- Embeds the attempt loop of `_retry_with_backoff` (utils.py lines 72-94)
over an explicit list of attempt indices (the Python loop runs it on
`range(max_retries + 1)`).  `op i` is the outcome of running the operation
on attempt `i` under the timeout: `some a` on success, `none` when the
attempt raised.  Returns the first success (if any) together with the list
of backoff waits inserted, in order; after a failed attempt `i` a wait of
`d * 2 ^ i` is inserted unless `i` was the last attempt
(`attempt < self.max_retries`, utils.py lines 91-94). -/
def runAttempts {α : Type} (op : Nat → Option α) (d : ℚ) (maxRetries : Nat) :
    List Nat → Option α × List ℚ
  | [] => (none, [])
  | i :: rest =>
    match op i with
    | some a => (some a, [])
    | none =>
      let r := runAttempts op d maxRetries rest
      if i < maxRetries then (r.1, d * 2 ^ i :: r.2) else (r.1, r.2)

/-- Embeds `CircuitBreaker._retry_with_backoff` (utils.py lines 65-99):
fail fast when the breaker reports open; otherwise run the attempt loop,
recording a success or (after exhausting all attempts) a failure.  Returns
the outcome, the list of backoff waits and the final breaker state. -/
def retryWithBackoff {α : Type} (cb : CircuitBreaker) (now : ℚ)
    (op : Nat → Option α) : RetryOutcome α × List ℚ × CircuitBreaker :=
  let c := isOpenCheck cb now
  if c.1 then (.circuitOpen, [], c.2)
  else
    let r := runAttempts op cb.retryDelay cb.maxRetries (List.range (cb.maxRetries + 1))
    match r.1 with
    | some a => (.success a, r.2, recordOperationSuccess c.2 now)
    | none => (.exhausted, r.2, recordOperationFailure c.2 now)

/-- Iterated exhausted operations: `failN k` applies
`recordOperationFailure` `k` times (at time `now`). -/
def failN (now : ℚ) : Nat → CircuitBreaker → CircuitBreaker
  | 0, cb => cb
  | k + 1, cb => recordOperationFailure (failN now k cb) now

lemma failN_connectionFailures (now : ℚ) (k : Nat) (cb : CircuitBreaker) :
    (failN now k cb).connectionFailures = cb.connectionFailures + k := by
  induction k with
  | zero => rfl
  | succ k ih =>
    simp only [failN, recordOperationFailure]
    split <;> simp [ih] <;> omega

lemma failN_openFlag_of_lt (now : ℚ) (k : Nat) (cb : CircuitBreaker)
    (h0 : cb.connectionFailures = 0) (hk : cb.connectionFailures + k < 5) :
    (failN now k cb).openFlag = cb.openFlag := by
  induction k with
  | zero => rfl
  | succ k ih =>
    have hcount := failN_connectionFailures now k cb
    simp only [failN, recordOperationFailure]
    have hlt : ¬ 5 ≤ (failN now k cb).connectionFailures + 1 := by omega
    simp only [hlt, if_false]
    exact ih (by omega)

/-- When every attempt fails, `runAttempts` fails and inserts the wait
`d * 2 ^ i` after exactly the attempts `i` that satisfy `i < maxRetries`. -/
lemma runAttempts_all_fail {α : Type} (op : Nat → Option α) (d : ℚ)
    (m : Nat) (l : List Nat) (h : ∀ i ∈ l, op i = none) :
    runAttempts op d m l =
      (none, (l.filter (fun i => decide (i < m))).map (fun i => d * 2 ^ i)) := by
  induction l with
  | nil => rfl
  | cons i rest ih =>
    have hi : op i = none := h i (List.mem_cons_self i rest)
    have hrest : ∀ j ∈ rest, op j = none := fun j hj => h j (List.mem_cons_of_mem i hj)
    simp only [runAttempts, hi, ih hrest, List.filter_cons]
    by_cases hlt : i < m
    · simp [hlt]
    · simp [hlt]

lemma range_succ_filter_lt (m : Nat) :
    (List.range (m + 1)).filter (fun i => decide (i < m)) = List.range m := by
  rw [List.range_succ, List.filter_append]
  have h1 : (List.range m).filter (fun i => decide (i < m)) = List.range m := by
    apply List.filter_eq_self.mpr
    intro a ha
    simpa using List.mem_range.mp ha
  have h2 : ([m].filter (fun i => decide (i < m))) = [] := by simp
  rw [h1, h2, List.append_nil]

/-- C2, main computation: with every attempt failing, the waits are
`[d * 2 ^ 0, …, d * 2 ^ (m - 1)]` for `m = maxRetries`. -/
lemma retryWithBackoff_waits {α : Type} (cb : CircuitBreaker) (now : ℚ)
    (op : Nat → Option α) (hclosed : cb.openFlag = false)
    (hfail : ∀ i, op i = none) :
    (retryWithBackoff cb now op).2.1 =
      (List.range cb.maxRetries).map (fun i => cb.retryDelay * 2 ^ i) := by
  unfold retryWithBackoff
  have hopen : isOpenCheck cb now = (false, cb) := by
    unfold isOpenCheck
    simp [hclosed]
  rw [hopen]
  have hrun := runAttempts_all_fail op cb.retryDelay cb.maxRetries
    (List.range (cb.maxRetries + 1)) (fun i _ => hfail i)
  simp [hrun, range_succ_filter_lt]

lemma isOpenCheck_closed (cb : CircuitBreaker) (now : ℚ)
    (h : cb.openFlag = false) : isOpenCheck cb now = (false, cb) := by
  unfold isOpenCheck
  simp [h]

lemma isOpenCheck_blocked (cb : CircuitBreaker) (now : ℚ)
    (hopen : cb.openFlag = true) (hcool : now - cb.lastFailure ≤ breakerTimeout) :
    isOpenCheck cb now = (true, cb) := by
  unfold isOpenCheck
  rw [if_neg (by simp [hopen]), if_neg (by push_neg; exact hcool)]

lemma isOpenCheck_expired (cb : CircuitBreaker) (now : ℚ)
    (hopen : cb.openFlag = true) (hexp : now - cb.lastFailure > breakerTimeout) :
    isOpenCheck cb now = (false, { cb with openFlag := false }) := by
  unfold isOpenCheck
  rw [if_neg (by simp [hopen]), if_pos hexp]

lemma retryWithBackoff_blocked {α : Type} (cb cb₁ : CircuitBreaker) (now : ℚ)
    (op : Nat → Option α) (hc : isOpenCheck cb now = (true, cb₁)) :
    retryWithBackoff cb now op = (.circuitOpen, [], cb₁) := by
  unfold retryWithBackoff
  rw [hc]
  simp

/-- Once the open-check lets the call through and every attempt fails,
`_retry_with_backoff` exhausts and records the failure. -/
lemma retryWithBackoff_exhausted_case {α : Type} (cb cb₁ : CircuitBreaker)
    (now : ℚ) (op : Nat → Option α)
    (hc : isOpenCheck cb now = (false, cb₁))
    (hr : (runAttempts op cb.retryDelay cb.maxRetries
      (List.range (cb.maxRetries + 1))).1 = none) :
    retryWithBackoff cb now op =
      (.exhausted,
        (runAttempts op cb.retryDelay cb.maxRetries (List.range (cb.maxRetries + 1))).2,
        recordOperationFailure cb₁ now) := by
  unfold retryWithBackoff
  rw [hc]
  simp [hr]

/-- Once the open-check lets the call through and an attempt succeeds,
`_retry_with_backoff` returns the success and records it. -/
lemma retryWithBackoff_success_case {α : Type} (cb cb₁ : CircuitBreaker)
    (now : ℚ) (op : Nat → Option α) (a : α)
    (hc : isOpenCheck cb now = (false, cb₁))
    (hr : (runAttempts op cb.retryDelay cb.maxRetries
      (List.range (cb.maxRetries + 1))).1 = some a) :
    retryWithBackoff cb now op =
      (.success a,
        (runAttempts op cb.retryDelay cb.maxRetries (List.range (cb.maxRetries + 1))).2,
        recordOperationSuccess cb₁ now) := by
  unfold retryWithBackoff
  rw [hc]
  simp [hr]

lemma recordOperationFailure_connectionFailures (cb : CircuitBreaker) (now : ℚ) :
    (recordOperationFailure cb now).connectionFailures =
      cb.connectionFailures + 1 := by
  simp only [recordOperationFailure]
  split <;> rfl

lemma recordOperationFailure_openFlag_of_ge (cb : CircuitBreaker) (now : ℚ)
    (h : 4 ≤ cb.connectionFailures) :
    (recordOperationFailure cb now).openFlag = true := by
  simp only [recordOperationFailure]
  rw [if_pos (by omega)]

/-- If the traversal order reaches index `k` after indices that all fail,
the attempt loop returns the success at `k`. -/
lemma runAttempts_fst_append {α : Type} (op : Nat → Option α) (d : ℚ)
    (m : Nat) (l₁ l₂ : List Nat) (k : Nat) (a : α) (hop : op k = some a)
    (h1 : ∀ j ∈ l₁, op j = none) :
    (runAttempts op d m (l₁ ++ k :: l₂)).1 = some a := by
  induction l₁ with
  | nil => simp [runAttempts, hop]
  | cons i rest ih =>
    have hi : op i = none := h1 i (List.mem_cons_self i rest)
    have hrest : ∀ j ∈ rest, op j = none := fun j hj => h1 j (List.mem_cons_of_mem i hj)
    simp only [List.cons_append, runAttempts, hi]
    split <;> simpa using ih hrest

/-- When the first success is at attempt `k ≤ maxRetries`, the loop over
`range (maxRetries + 1)` returns it. -/
lemma runAttempts_range_first_success {α : Type} (op : Nat → Option α) (d : ℚ)
    (m k : Nat) (a : α) (hk : k ≤ m) (hop : op k = some a)
    (hfail : ∀ j < k, op j = none) :
    (runAttempts op d m (List.range (m + 1))).1 = some a := by
  obtain ⟨t, ht⟩ : ∃ t, m + 1 - k = t + 1 := ⟨m - k, by omega⟩
  have hsplit : List.range (m + 1) =
      List.range k ++ k :: ((List.range t).map Nat.succ).map (k + ·) := by
    have h1 : m + 1 = k + (m + 1 - k) := by omega
    rw [h1, List.range_add, ht, List.range_succ_eq_map]
    simp
  rw [hsplit]
  exact runAttempts_fst_append op d m _ _ k a hop
    (fun j hj => hfail j (List.mem_range.mp hj))

/-- C2: Exponential backoff schedule.  For every call to
`_retry_with_backoff` (breaker closed) with base delay `d` in which all
`N = maxRetries + 1` attempts fail, the wait inserted before attempt `k`
(attempts numbered from 0) equals `d * 2 ^ (k - 1)` for `1 ≤ k < N`, and no
wait follows the final attempt: exactly `N - 1` waits are inserted. -/
theorem C2_backoff_schedule {α : Type} (cb : CircuitBreaker) (now : ℚ)
    (op : Nat → Option α) (hclosed : cb.openFlag = false)
    (hfail : ∀ i, op i = none) :
    (retryWithBackoff cb now op).2.1.length = (cb.maxRetries + 1) - 1 ∧
      ∀ k, 1 ≤ k → k < cb.maxRetries + 1 →
        (retryWithBackoff cb now op).2.1[k - 1]? =
          some (cb.retryDelay * 2 ^ (k - 1)) := by
  rw [retryWithBackoff_waits cb now op hclosed hfail]
  constructor
  · simp
  · intro k hk1 hkN
    have hklt : k - 1 < cb.maxRetries := by omega
    simp [List.getElem?_map, List.getElem?_range, hklt]

/-- Witness for C2 at the default breaker (`maxRetries = 3`, `d = 2`):
three waits, the one before attempt 2 being `2 * 2 ^ 1`. -/
theorem C2_backoff_schedule_witness :
    (retryWithBackoff ({} : CircuitBreaker) 0 (fun _ : Nat => (none : Option Unit))).2.1.length = 3 ∧
      (retryWithBackoff ({} : CircuitBreaker) 0 (fun _ : Nat => (none : Option Unit))).2.1[2 - 1]? =
        some (({} : CircuitBreaker).retryDelay * 2 ^ (2 - 1)) := by
  have h := C2_backoff_schedule ({} : CircuitBreaker) 0
    (fun _ : Nat => (none : Option Unit)) rfl (fun _ => rfl)
  exact ⟨h.1, h.2 2 (by norm_num) (by norm_num)⟩

/-- C3: Circuit breaker trip and reset.  From a closed breaker with a zero
failure counter: (i) after exactly 5 consecutive exhausted operations the
breaker is open, while after fewer it is still closed; (ii) a recorded
success resets the counter to 0 and closes the breaker; (iii) with
`maxRetries = 5`, an operation failing its first 4 invocations and
succeeding on the 5th yields the success and leaves the breaker closed
with the counter at 0. -/
theorem C3_breaker_trip_and_reset {α : Type} (cb : CircuitBreaker)
    (now t : ℚ) (x : α)
    (h0 : cb.connectionFailures = 0) (hcl : cb.openFlag = false) :
    ((failN now 5 cb).openFlag = true ∧
      ∀ j < 5, (failN now j cb).openFlag = false) ∧
    (∀ cb' : CircuitBreaker,
      (recordOperationSuccess cb' t).connectionFailures = 0 ∧
        (recordOperationSuccess cb' t).openFlag = false) ∧
    ((retryWithBackoff { cb with maxRetries := 5 } now
        (fun i => if i < 4 then none else some x)).1 = .success x ∧
      (retryWithBackoff { cb with maxRetries := 5 } now
        (fun i => if i < 4 then none else some x)).2.2.openFlag = false ∧
      (retryWithBackoff { cb with maxRetries := 5 } now
        (fun i => if i < 4 then none else some x)).2.2.connectionFailures = 0) := by
  refine ⟨⟨?_, ?_⟩, fun cb' => ⟨rfl, rfl⟩, ?_⟩
  · have h4 : (failN now 4 cb).connectionFailures = 4 := by
      rw [failN_connectionFailures, h0]
    show (recordOperationFailure (failN now 4 cb) now).openFlag = true
    unfold recordOperationFailure
    rw [h4]
    norm_num
  · intro j hj
    rw [failN_openFlag_of_lt now j cb h0 (by omega), hcl]
  · have hfst : (runAttempts (fun i => if i < 4 then none else some x)
        ({ cb with maxRetries := 5 } : CircuitBreaker).retryDelay
        ({ cb with maxRetries := 5 } : CircuitBreaker).maxRetries
        (List.range (({ cb with maxRetries := 5 } : CircuitBreaker).maxRetries + 1))).1 =
          some x := by
      refine runAttempts_range_first_success _ _ 5 4 x (by norm_num) (by norm_num) ?_
      intro j hj
      simp [hj]
    have hop : isOpenCheck { cb with maxRetries := 5 } now =
        (false, { cb with maxRetries := 5 }) :=
      isOpenCheck_closed _ now hcl
    rw [retryWithBackoff_success_case _ _ now _ x hop hfst]
    exact ⟨rfl, rfl, rfl⟩

/-- Witness for C3 at the default breaker. -/
theorem C3_breaker_trip_and_reset_witness :
    (failN 0 5 ({} : CircuitBreaker)).openFlag = true ∧
      (retryWithBackoff ({ maxRetries := 5 } : CircuitBreaker) 0
        (fun i => if i < 4 then none else some ())).1 = .success () := by
  have h := C3_breaker_trip_and_reset ({} : CircuitBreaker) 0 0 () rfl rfl
  exact ⟨h.1.1, h.2.2.1⟩

/-- C4: Open-breaker behavior.  While the breaker is open:
within the 60-second cooldown every call fails immediately with the
circuit-open error, leaving the state untouched and running no attempt;
after the cooldown the call is allowed through (half-open) and that one
trial decides: if it exhausts all attempts the breaker re-opens, and if
some attempt succeeds the breaker closes with the counter reset to 0. -/
theorem C4_open_breaker {α : Type} (cb : CircuitBreaker) (now : ℚ)
    (hopen : cb.openFlag = true) :
    (now - cb.lastFailure ≤ breakerTimeout →
      ∀ op : Nat → Option α,
        retryWithBackoff cb now op = (.circuitOpen, [], cb)) ∧
    (now - cb.lastFailure > breakerTimeout → 5 ≤ cb.connectionFailures →
      ∀ op : Nat → Option α,
        (retryWithBackoff cb now op).1 ≠ .circuitOpen ∧
        ((∀ i, op i = none) →
          (retryWithBackoff cb now op).1 = .exhausted ∧
            (retryWithBackoff cb now op).2.2.openFlag = true) ∧
        (∀ k a, k ≤ cb.maxRetries → op k = some a → (∀ j < k, op j = none) →
          (retryWithBackoff cb now op).1 = .success a ∧
            (retryWithBackoff cb now op).2.2.openFlag = false ∧
            (retryWithBackoff cb now op).2.2.connectionFailures = 0)) := by
  constructor
  · intro hcool op
    exact retryWithBackoff_blocked cb cb now op
      (isOpenCheck_blocked cb now hopen hcool)
  · intro hexp h5 op
    have hc : isOpenCheck cb now = (false, { cb with openFlag := false }) :=
      isOpenCheck_expired cb now hopen hexp
    refine ⟨?_, ?_, ?_⟩
    · cases hr : (runAttempts op cb.retryDelay cb.maxRetries
          (List.range (cb.maxRetries + 1))).1 with
      | none =>
        rw [retryWithBackoff_exhausted_case _ _ now op hc hr]
        simp
      | some a =>
        rw [retryWithBackoff_success_case _ _ now op a hc hr]
        simp
    · intro hfail
      have hnone : (runAttempts op cb.retryDelay cb.maxRetries
          (List.range (cb.maxRetries + 1))).1 = none := by
        rw [runAttempts_all_fail op cb.retryDelay cb.maxRetries
          (List.range (cb.maxRetries + 1)) (fun i _ => hfail i)]
      rw [retryWithBackoff_exhausted_case _ _ now op hc hnone]
      exact ⟨rfl, recordOperationFailure_openFlag_of_ge _ now (by simp; omega)⟩
    · intro k a hk hopk hfail
      have hfst := runAttempts_range_first_success op cb.retryDelay
        cb.maxRetries k a hk hopk hfail
      rw [retryWithBackoff_success_case _ _ now op a hc hfst]
      exact ⟨rfl, rfl, rfl⟩

/-- Witness for C4: a breaker opened at time 0 with 5 failures rejects a
call at time 10 and lets a trial through at time 100, which re-opens it
when the trial exhausts. -/
theorem C4_open_breaker_witness :
    retryWithBackoff
        ({ openFlag := true, connectionFailures := 5 } : CircuitBreaker) 10
        (fun _ : Nat => some ()) =
      (.circuitOpen, [], { openFlag := true, connectionFailures := 5 }) ∧
    (retryWithBackoff
        ({ openFlag := true, connectionFailures := 5 } : CircuitBreaker) 100
        (fun _ : Nat => (none : Option Unit))).1 = .exhausted := by
  have h1 := (C4_open_breaker (α := Unit)
    ({ openFlag := true, connectionFailures := 5 } : CircuitBreaker) 10 rfl).1
    (by norm_num [breakerTimeout]) (fun _ => some ())
  have h2 := ((C4_open_breaker (α := Unit)
    ({ openFlag := true, connectionFailures := 5 } : CircuitBreaker) 100 rfl).2
    (by norm_num [breakerTimeout]) (by norm_num) (fun _ => none)).2.1
    (fun _ => rfl)
  exact ⟨h1, h2.1⟩

/-- C10: the cooldown expiry path of `_is_open` closes the breaker without
resetting the failure counter, which stays at 5 or more; the next recorded
exhausted operation immediately re-opens the breaker; recording a failure
always increments the counter (never resets it), and only a recorded
success sets it back to 0. -/
theorem C10_cooldown_keeps_failures (cb : CircuitBreaker) (now t : ℚ)
    (hopen : cb.openFlag = true) (hexp : now - cb.lastFailure > breakerTimeout)
    (h5 : 5 ≤ cb.connectionFailures) :
    isOpenCheck cb now = (false, { cb with openFlag := false }) ∧
    (isOpenCheck cb now).2.connectionFailures = cb.connectionFailures ∧
    (recordOperationFailure (isOpenCheck cb now).2 t).openFlag = true ∧
    (∀ cb' : CircuitBreaker,
      (recordOperationFailure cb' t).connectionFailures =
        cb'.connectionFailures + 1) ∧
    (∀ cb' : CircuitBreaker,
      (recordOperationSuccess cb' t).connectionFailures = 0) := by
  have hc : isOpenCheck cb now = (false, { cb with openFlag := false }) :=
    isOpenCheck_expired cb now hopen hexp
  refine ⟨hc, by rw [hc], ?_, fun cb' => recordOperationFailure_connectionFailures cb' t,
    fun cb' => rfl⟩
  rw [hc]
  exact recordOperationFailure_openFlag_of_ge _ t (by simp; omega)

/-- Witness for C10 at a breaker opened at time 0 with 5 failures, probed
at time 100. -/
theorem C10_cooldown_keeps_failures_witness :
    (isOpenCheck ({ openFlag := true, connectionFailures := 5 } : CircuitBreaker)
        100).2.connectionFailures = 5 ∧
    (recordOperationFailure
        (isOpenCheck ({ openFlag := true, connectionFailures := 5 } : CircuitBreaker)
          100).2 100).openFlag = true := by
  have h := C10_cooldown_keeps_failures
    ({ openFlag := true, connectionFailures := 5 } : CircuitBreaker) 100 100
    rfl (by norm_num [breakerTimeout]) (by norm_num)
  exact ⟨h.2.1, h.2.2.1⟩

/-! ## Multi-agent negotiations (ai_diplomacy/negotiations.py lines 83-217) -/

/-- Pair-keyed guard state of `conduct_negotiations`: the local dicts
`last_sent_round` and `awaiting_reply` (negotiations.py lines 84-85),
modelled as total functions with the dict-lookup defaults
(`.get(pair)` gives `none` on a missing key, `.get(pair, False)` gives
`false`).  Rounds are the 0-indexed `round_index` values, as integers so
that the Python comparison with `round_index - 1` is literal. -/
structure NegoGuard where
  last_sent_round : String × String → Option Int
  awaiting_reply : String × String → Bool

/-- Fresh guard state: both dicts start empty on every
`conduct_negotiations` call (negotiations.py lines 84-85). -/
def NegoGuard.initial : NegoGuard :=
  { last_sent_round := fun _ => none, awaiting_reply := fun _ => false }

/-- Embeds the repetition guard and its bookkeeping (negotiations.py lines
181-194) for one candidate private message from `sender` to `recipient` in
round `round`: the message is discarded exactly when the sender is
awaiting a reply on the pair and the pair was last sent in the immediately
preceding round (`last_sent_round.get(pair) == round_index - 1`);
otherwise the send is recorded (`last_sent_round[pair] = round_index`,
`awaiting_reply[pair] = True`, `awaiting_reply[(recipient, sender)] =
False`).  Returns the new guard state and whether the message was sent.
The awaiting updates keep the Python assignment order: the line-193 write
to the reversed pair lands after the line-192 write to the pair. -/
def processCandidate (g : NegoGuard) (round : Int) (sender recipient : String) :
    NegoGuard × Bool :=
  let pair := (sender, recipient)
  if g.awaiting_reply pair = true ∧ g.last_sent_round pair = some (round - 1) then
    (g, false)
  else
    ({ last_sent_round := fun p => if p = pair then some round else g.last_sent_round p,
       awaiting_reply := fun p =>
         if p = (recipient, sender) then false
         else if p = pair then true
         else g.awaiting_reply p },
     true)

/-- A candidate message returned by the decision collaborator, after the
dict-shape check of negotiations.py line 168.  The recipient is the value
already passed through `normalize_recipient_name`. -/
structure Candidate where
  message_type : String
  recipient : String
  content : String
  deriving Repr, DecidableEq

/-- Outcome of one `get_conversation_reply` task for one power: the task
raised, returned `None`, or returned a list of candidate messages
(negotiations.py lines 143-161). -/
inductive ReplyResult where
  | raised
  | gotNone
  | messages (ms : List Candidate)

/-- Increment the counter stored under `key` in an insertion-ordered
association list, inserting `(key, 1)` when the key is absent (Python
`setdefault(key, 0)` followed by `+= 1`). -/
def bumpKey (key : String) : List (String × Nat) → List (String × Nat)
  | [] => [(key, 1)]
  | (k, n) :: rest =>
    if k = key then (k, n + 1) :: rest else (k, n) :: bumpKey key rest

/-- Membership test on the statistics keys (Python `model_name in
model_error_stats`). -/
def hasKey (key : String) (stats : List (String × Nat)) : Bool :=
  stats.any (fun kv => kv.1 == key)

/-- Embeds the error-recording branches of `conduct_negotiations`
(negotiations.py lines 145-149 and 154-158): the `conversation_errors`
counter is bumped under the model name when that key is already present in
the statistics table, otherwise under the power name (after a
`setdefault`). -/
def recordConversationError (stats : List (String × Nat))
    (model_name power_name : String) : List (String × Nat) :=
  if hasKey model_name stats then bumpKey model_name stats
  else bumpKey power_name stats

/-- State threaded through the negotiation rounds: the pair guard, the
error statistics, and the log of accepted sends as
`(round, sender, recipient, content)`. -/
structure NegoState where
  guard : NegoGuard
  stats : List (String × Nat)
  sent : List (Int × String × String × String)

/-- Embeds the per-message loop of `conduct_negotiations` (negotiations.py
lines 167-214) for one power's message list: non-private messages are
skipped (line 173), messages with an empty or unknown recipient are
skipped (lines 176-179), and the rest pass through the repetition guard;
accepted messages are appended to the send log. -/
def processMessages (powers : List String) (round : Int) (power_name : String) :
    NegoState → List Candidate → NegoState
  | st, [] => st
  | st, m :: rest =>
    if m.message_type ≠ "private" then
      processMessages powers round power_name st rest
    else if m.recipient = "" ∨ m.recipient ∉ powers then
      processMessages powers round power_name st rest
    else
      let r := processCandidate st.guard round power_name m.recipient
      let st' :=
        if r.2 then
          { st with
            guard := r.1
            sent := st.sent ++ [(round, power_name, m.recipient, m.content)] }
        else { st with guard := r.1 }
      processMessages powers round power_name st' rest

/-- Embeds the per-power result processing of `conduct_negotiations`
(negotiations.py lines 138-165): an exception result or a `None` result
bumps the error statistics and contributes no messages; a message list is
processed in order. -/
def processResult (powers : List String) (round : Int)
    (power_name model_name : String) (st : NegoState) :
    ReplyResult → NegoState
  | .raised =>
    { st with stats := recordConversationError st.stats model_name power_name }
  | .gotNone =>
    { st with stats := recordConversationError st.stats model_name power_name }
  | .messages ms => processMessages powers round power_name st ms

/-- One negotiation round of `conduct_negotiations` (negotiations.py lines
89-214): the task results of the active powers are processed in order.
`model_of` gives each power's decision-model identity and `results` the
outcome of its `get_conversation_reply` task. -/
def processRound (powers : List String) (model_of : String → String)
    (results : String → ReplyResult) (round : Int) (st : NegoState) : NegoState :=
  powers.foldl (fun s p => processResult powers round p (model_of p) s (results p)) st

/-- The non-NDAI round loop of `conduct_negotiations` (negotiations.py
lines 83-217): `max_rounds` rounds starting from a fresh guard.  A total
function: no per-power failure escapes the loop. -/
def conductNegotiations (powers : List String) (model_of : String → String)
    (results : Nat → String → ReplyResult) (max_rounds : Nat)
    (stats : List (String × Nat)) : NegoState :=
  (List.range max_rounds).foldl
    (fun st r => processRound powers model_of (results r) (r : Int) st)
    { guard := NegoGuard.initial, stats := stats, sent := [] }

/-! ## Single-bot negotiation round (bot_client/src/websocket_negotiations.py) -/

/-- The broadcast sentinel `GLOBAL` of the diplomacy engine. -/
def GLOBAL : String := "GLOBAL"

/-- Environment of one `conduct_single_bot_negotiation` call: the skip
conditions, the peers, and the outcome of the `get_conversation_reply`
call at websocket_negotiations.py line 75 (`Except.error` models the
decision collaborator raising). -/
structure SingleBotEnv where
  eliminated : Bool
  possible_orders : List String
  powers : List String
  reply : Except Unit (List Candidate)

/-- Embeds `_send_negotiation_message` (websocket_negotiations.py lines
104-164): empty (stripped) content fails validation; a private message
whose recipient is neither a power nor `GLOBAL` is coerced to `GLOBAL`;
non-private messages go to `GLOBAL`.  Returns the success flag and the
appended send log. -/
def sendNegotiationMessage (powers : List String) (m : Candidate)
    (log : List (String × String)) : Bool × List (String × String) :=
  if m.content = "" then (false, log)
  else
    let recipient :=
      if m.message_type = "private" then
        if m.recipient ∉ powers ∧ m.recipient ≠ GLOBAL then GLOBAL else m.recipient
      else GLOBAL
    (true, log ++ [(recipient, m.content)])

/-- Embeds `conduct_single_bot_negotiation` (websocket_negotiations.py
lines 21-101).  The `get_conversation_reply` call at line 75 is not
wrapped in any try/except, so a raising decision collaborator propagates
out as `Except.error`, and the `model_error_stats` argument is never
touched anywhere in this function.  On a normal reply every message is
routed through `_send_negotiation_message`; the function returns whether
at least one send succeeded, together with the (unchanged) statistics and
the send log. -/
def conductSingleBotNegotiation (env : SingleBotEnv) (stats : List (String × Nat)) :
    Except Unit (Bool × List (String × Nat) × List (String × String)) :=
  if env.eliminated then .ok (false, stats, [])
  else if env.possible_orders = [] then .ok (false, stats, [])
  else
    match env.reply with
    | .error e => .error e
    | .ok ms =>
      if ms = [] then .ok (false, stats, [])
      else
        let r := ms.foldl
          (fun acc m =>
            let s := sendNegotiationMessage env.powers m acc.2
            (acc.1 + (if s.1 then 1 else 0), s.2))
          ((0 : Nat), ([] : List (String × String)))
        .ok (decide (0 < r.1), stats, r.2)

lemma processCandidate_discard (g : NegoGuard) (round : Int) (s t : String)
    (h : g.awaiting_reply (s, t) = true ∧
      g.last_sent_round (s, t) = some (round - 1)) :
    processCandidate g round s t = (g, false) := by
  simp only [processCandidate]
  rw [if_pos h]

lemma processCandidate_accept (g : NegoGuard) (round : Int) (s t : String)
    (h : ¬(g.awaiting_reply (s, t) = true ∧
      g.last_sent_round (s, t) = some (round - 1))) :
    processCandidate g round s t =
      ({ last_sent_round := fun p => if p = (s, t) then some round else g.last_sent_round p,
         awaiting_reply := fun p =>
           if p = (t, s) then false
           else if p = (s, t) then true
           else g.awaiting_reply p },
       true) := by
  simp only [processCandidate]
  rw [if_neg h]

/-- C1: Repetition guard for private messages.  (i) A candidate private
message on `pair = (sender, recipient)` is discarded exactly when
`awaiting_reply[pair]` is true and the pair was last sent in the
immediately preceding round; (ii) every accepted send between distinct
powers records `last_sent_round[pair] = round`, sets
`awaiting_reply[pair] = true` and clears `awaiting_reply[(recipient,
sender)]`; (iii) starting a phase fresh: A's send to B in round `r` is
accepted, A's repeat attempt in round `r + 1` is discarded, after a B→A
reply in round `r + 1` A's message to B in round `r + 2` is accepted, and
even with no reply at all A's message to B in round `r + 2` is accepted
(the guard permits resuming after skipping one round). -/
theorem C1_repetition_guard (g : NegoGuard) (round r : Int) (A B : String)
    (hAB : A ≠ B) :
    ((processCandidate g round A B).2 = false ↔
      (g.awaiting_reply (A, B) = true ∧
        g.last_sent_round (A, B) = some (round - 1))) ∧
    ((processCandidate g round A B).2 = true →
      (processCandidate g round A B).1.last_sent_round (A, B) = some round ∧
      (processCandidate g round A B).1.awaiting_reply (A, B) = true ∧
      (processCandidate g round A B).1.awaiting_reply (B, A) = false) ∧
    ((processCandidate NegoGuard.initial r A B).2 = true ∧
      (processCandidate (processCandidate NegoGuard.initial r A B).1
        (r + 1) A B).2 = false ∧
      (processCandidate
        (processCandidate (processCandidate NegoGuard.initial r A B).1
          (r + 1) B A).1
        (r + 2) A B).2 = true ∧
      (processCandidate (processCandidate NegoGuard.initial r A B).1
        (r + 2) A B).2 = true) := by
  have e1 : r + 1 - 1 = r := by ring
  have e2 : r + 2 - 1 = r + 1 := by ring
  have e3 : r ≠ r + 1 := by omega
  refine ⟨?_, ?_, ?_⟩
  · by_cases h : g.awaiting_reply (A, B) = true ∧
        g.last_sent_round (A, B) = some (round - 1)
    · rw [processCandidate_discard g round A B h]
      simp [h.1, h.2]
    · rw [processCandidate_accept g round A B h]
      simp [h]
  · by_cases h : g.awaiting_reply (A, B) = true ∧
        g.last_sent_round (A, B) = some (round - 1)
    · rw [processCandidate_discard g round A B h]
      intro hcon
      simp at hcon
    · rw [processCandidate_accept g round A B h]
      intro _
      refine ⟨?_, ?_, ?_⟩ <;> simp [Prod.mk.injEq, hAB, Ne.symm hAB]
  · refine ⟨?_, ?_, ?_, ?_⟩ <;>
      simp [processCandidate, NegoGuard.initial, Prod.mk.injEq, hAB,
        Ne.symm hAB, e1, e2, e3]

/-- Witness for C1 with the fresh-phase scenario at round 0 for
FRANCE→GERMANY. -/
theorem C1_repetition_guard_witness :
    (processCandidate NegoGuard.initial 0 "FRANCE" "GERMANY").2 = true ∧
      (processCandidate (processCandidate NegoGuard.initial 0 "FRANCE" "GERMANY").1
        (0 + 1) "FRANCE" "GERMANY").2 = false ∧
      (processCandidate (processCandidate NegoGuard.initial 0 "FRANCE" "GERMANY").1
        (0 + 2) "FRANCE" "GERMANY").2 = true := by
  have h := C1_repetition_guard NegoGuard.initial 0 0 "FRANCE" "GERMANY" (by decide)
  exact ⟨h.2.2.1, h.2.2.2.1, h.2.2.2.2.2⟩

/-- C7, code evaluated at the failing input.  In the multi-agent
coordinator a raising decision task is contained: the statistics gain a
`conversation_errors` count under the model identity and the round
contributes no message from that power, and the loop over powers and
rounds is a total function.  In the single-bot round, however, the very
same failure propagates out of `conduct_single_bot_negotiation` as an
uncaught exception with the statistics left untouched — the behaviour the
repository's own test `test_negotiation_round_ai_error` (which asserts a
`False` return and `conversation_errors == 1`) expects is not what the
code does. -/
theorem C7_decision_failure_containment :
    (processResult ["FRANCE", "GERMANY"] 0 "FRANCE" "test_model"
        { guard := NegoGuard.initial, stats := [("test_model", 0)], sent := [] }
        .raised).stats = [("test_model", 1)] ∧
    (processResult ["FRANCE", "GERMANY"] 0 "FRANCE" "test_model"
        { guard := NegoGuard.initial, stats := [("test_model", 0)], sent := [] }
        .raised).sent = [] ∧
    (conductNegotiations ["FRANCE", "GERMANY"] (fun _ => "test_model")
        (fun _ _ => .raised) 3 [("test_model", 0)]).stats = [("test_model", 6)] ∧
    conductSingleBotNegotiation
        { eliminated := false, possible_orders := ["A CON H"],
          powers := ["TURKEY", "RUSSIA"], reply := .error () }
        [("test_model", 0)] = .error () := by
  refine ⟨rfl, rfl, rfl, rfl⟩

/-! ## Single bot player session (bot_client/src/single_bot_player.py) -/

/-- Session-state fields of `SingleBotPlayer` relevant to the phase state
machine and contact tracking (single_bot_player.py lines 75-95).
`message_counts` is the insertion-ordered dict of messages received per
power. -/
structure BotState where
  current_phase : Option String := none
  orders_submitted : Bool := false
  waiting_for_orders : Bool := false
  current_negotiation_round : Nat := 0
  negotiation_complete : Bool := false
  message_counts : List (String × Nat) := []
  priority_contacts : List String := []
  deriving Repr, DecidableEq

/-- Insert into a list sorted by count descending, placing the new element
before the first element whose count it reaches: later elements never
overtake earlier ones with an equal count. -/
def insertDesc (x : String × Nat) : List (String × Nat) → List (String × Nat)
  | [] => [x]
  | y :: ys => if y.2 ≤ x.2 then x :: y :: ys else y :: insertDesc x ys

/-- Stable sort by count descending: the model of Python's stable
`sorted(items, key=lambda x: x[1], reverse=True)`
(single_bot_player.py line 530). -/
def sortByCountDesc : List (String × Nat) → List (String × Nat)
  | [] => []
  | x :: xs => insertDesc x (sortByCountDesc xs)

/-- Embeds `_update_priority_contacts` (single_bot_player.py lines
527-535): sort the received-message counters by count descending (ties
keep first-seen insertion order) and keep the names of the top 4. -/
def updatePriorityContacts (st : BotState) : BotState :=
  { st with
    priority_contacts := ((sortByCountDesc st.message_counts).map Prod.fst).take 4 }

/-- Embeds the reset block of `_handle_phase_update_async`
(single_bot_player.py lines 200-207): adopt the new phase and reset the
orders-submitted flag, the negotiation round and the
negotiation-complete flag. -/
def phaseResetState (st : BotState) (new_phase : String) : BotState :=
  { st with
    current_phase := some new_phase
    orders_submitted := false
    current_negotiation_round := 0
    negotiation_complete := false }

/-- The movement-phase test `new_phase.endswith("M")`
(single_bot_player.py line 214), on the phase's character list. -/
def isMovementPhase (phase : String) : Bool :=
  phase.data.getLast? = some 'M'

/-- Embeds `_handle_phase_update_async` (single_bot_player.py lines
189-218).  A failed re-synchronization is re-raised (lines 191-198,
`raise e`).  Otherwise, when the resolved phase differs from the current
one the session is reset via `phaseResetState`, the negotiation handler
runs when the new phase is a movement phase, and the order check runs;
both continuations are passed in as state transformers.  When the phase is
unchanged nothing happens. -/
def handlePhaseUpdate (syncResult : Except Unit Unit) (new_phase : String)
    (negotiate checkOrders : BotState → BotState) (st : BotState) :
    Except Unit BotState :=
  match syncResult with
  | .error e => .error e
  | .ok _ =>
    if some new_phase ≠ st.current_phase then
      let st1 := phaseResetState st new_phase
      let st2 := if isMovementPhase new_phase then negotiate st1 else st1
      .ok (checkOrders st2)
    else .ok st

/-- Calls recorded while submitting orders: an empty or fallback order set
goes through the circuit-breaker wrapper
(`self.circuit_breaker._retry_with_backoff(self.client.set_orders, …)`,
single_bot_player.py lines 356 and 388), while the decided orders are
submitted with a bare `await self.client.set_orders(…)` (line 378). -/
inductive SubmitCall where
  | wrappedSet (orders : List String)
  | directSet (orders : List String)
  deriving Repr, DecidableEq

/-- Environment of one `_check_if_orders_needed` / `_submit_orders` run:
the collaborator answers and the transport outcomes.  `decision` is the
`get_valid_orders` result (`some orders` for a truthy result carrying
`orders["valid"]`, `none` for a falsy one); `wrappedSetOk` is whether the
breaker-wrapped empty submission returns, `directSetOk` whether the bare
`set_orders` call returns. -/
structure OrdersEnv where
  orderable_locations : List String
  possible_orders : List String
  decision : Option (List String)
  wrappedSetOk : Bool
  directSetOk : Bool
  deriving Repr, DecidableEq

/-- Embeds `_submit_orders` (single_bot_player.py lines 337-397).  Already
submitted: no-op (lines 339-341).  No possible orders: submit an empty set
through the wrapper and mark submitted (lines 354-358; a raising wrapper
propagates, leaving the flag untouched).  A truthy decision: submit the
decided orders with a bare `set_orders` call (line 378) and mark submitted
only after it returns (line 390); a falsy decision: submit an empty set
through the wrapper (line 388) and mark submitted after it returns.
Returns the new state and the submission calls that completed. -/
def submitOrders (env : OrdersEnv) (st : BotState) :
    Except Unit (BotState × List SubmitCall) :=
  if st.orders_submitted then .ok (st, [])
  else if env.possible_orders = [] then
    if env.wrappedSetOk then
      .ok ({ st with orders_submitted := true }, [.wrappedSet []])
    else .error ()
  else
    match env.decision with
    | some orders =>
      if env.directSetOk then
        .ok ({ st with orders_submitted := true, waiting_for_orders := false },
          [.directSet orders])
      else .error ()
    | none =>
      if env.wrappedSetOk then
        .ok ({ st with orders_submitted := true, waiting_for_orders := false },
          [.wrappedSet []])
      else .error ()

/-- Embeds `_check_if_orders_needed` (single_bot_player.py lines 274-291):
no-op when orders are already submitted; when there are no orderable
locations only a log line is emitted; otherwise `waiting_for_orders` is
raised and `_submit_orders` runs. -/
def checkIfOrdersNeeded (env : OrdersEnv) (st : BotState) :
    Except Unit (BotState × List SubmitCall) :=
  if st.orders_submitted then .ok (st, [])
  else if env.orderable_locations = [] then .ok (st, [])
  else submitOrders env { st with waiting_for_orders := true }

/-- How one run of the game-processed handler ended: normally, or with an
exception escaping the handler. -/
inductive HandlerOutcome where
  | completed
  | raised
  deriving Repr, DecidableEq

/-- Embeds `_handle_game_processed_async` (single_bot_player.py lines
227-236).  The breaker-wrapped `synchronize` call at line 230 sits in no
try/except: when it raises, the exception escapes the handler and the
remaining statements (the result analysis and the resets of
`orders_submitted` and `waiting_for_orders` at lines 233-236) never run,
so the state is returned unchanged.  On success, the phase results are
analyzed and both flags are cleared. -/
def handleGameProcessed (syncOk : Bool) (analyze : BotState → BotState)
    (st : BotState) : HandlerOutcome × BotState :=
  if syncOk then
    (.completed,
      { analyze st with orders_submitted := false, waiting_for_orders := false })
  else (.raised, st)

lemma insertDesc_perm (x : String × Nat) (l : List (String × Nat)) :
    (insertDesc x l).Perm (x :: l) := by
  induction l with
  | nil => exact List.Perm.refl _
  | cons y ys ih =>
    unfold insertDesc
    by_cases hc : y.2 ≤ x.2
    · rw [if_pos hc]
    · rw [if_neg hc]
      exact (List.Perm.cons y ih).trans (List.Perm.swap x y ys)

lemma sortByCountDesc_perm (l : List (String × Nat)) :
    (sortByCountDesc l).Perm l := by
  induction l with
  | nil => exact List.Perm.refl _
  | cons x xs ih =>
    exact (insertDesc_perm x (sortByCountDesc xs)).trans (List.Perm.cons x ih)

lemma insertDesc_sorted (x : String × Nat) (l : List (String × Nat))
    (h : l.Sorted (fun a b => b.2 ≤ a.2)) :
    (insertDesc x l).Sorted (fun a b => b.2 ≤ a.2) := by
  induction l with
  | nil => simp [insertDesc]
  | cons y ys ih =>
    rw [List.sorted_cons] at h
    unfold insertDesc
    by_cases hc : y.2 ≤ x.2
    · rw [if_pos hc]
      refine List.sorted_cons.mpr ⟨?_, List.sorted_cons.mpr h⟩
      intro b hb
      rcases List.mem_cons.mp hb with rfl | hbys
      · exact hc
      · exact le_trans (h.1 b hbys) hc
    · rw [if_neg hc]
      push_neg at hc
      refine List.sorted_cons.mpr ⟨?_, ih h.2⟩
      intro b hb
      rcases List.mem_cons.mp ((insertDesc_perm x ys).mem_iff.mp hb) with rfl | hbys
      · exact le_of_lt hc
      · exact h.1 b hbys

lemma sortByCountDesc_sorted (l : List (String × Nat)) :
    (sortByCountDesc l).Sorted (fun a b => b.2 ≤ a.2) := by
  induction l with
  | nil => simp [sortByCountDesc]
  | cons x xs ih => exact insertDesc_sorted x (sortByCountDesc xs) ih

/-- C8 counterexample: with inbound counts X:5, Y:3, Z:3, W:1 and X first
seen, `_update_priority_contacts` keeps all four peers — the top-4
truncation does not trim a four-peer table to three — so the ranking is
neither `[X, Y, Z]` nor `[X, Z, Y]`. -/
theorem C8_priority_ranking_counterexample :
    (updatePriorityContacts
        { message_counts := [("X", 5), ("Y", 3), ("Z", 3), ("W", 1)] }).priority_contacts =
      ["X", "Y", "Z", "W"] ∧
    (["X", "Y", "Z", "W"] : List String) ≠ ["X", "Y", "Z"] ∧
    (["X", "Y", "Z", "W"] : List String) ≠ ["X", "Z", "Y"] := by
  exact ⟨rfl, by decide, by decide⟩

/-- C8 amended: `_update_priority_contacts` ranks the peers by inbound
count descending (a stable sort of the counter table: a permutation,
sorted by count), breaks ties by first-seen insertion order, and keeps at
most 4 entries; for counts {X:5, Y:3, Z:3, W:1} all four peers fit inside
the truncation, giving `[X, Y, Z, W]` when Y was first seen before Z and
`[X, Z, Y, W]` in the opposite first-seen order. -/
theorem C8_priority_ranking_amended :
    (∀ l : List (String × Nat), (sortByCountDesc l).Perm l) ∧
    (∀ l : List (String × Nat),
      (sortByCountDesc l).Sorted (fun a b => b.2 ≤ a.2)) ∧
    (∀ st : BotState, (updatePriorityContacts st).priority_contacts.length ≤ 4) ∧
    (updatePriorityContacts
        { message_counts := [("X", 5), ("Y", 3), ("Z", 3), ("W", 1)] }).priority_contacts =
      ["X", "Y", "Z", "W"] ∧
    (updatePriorityContacts
        { message_counts := [("X", 5), ("Z", 3), ("Y", 3), ("W", 1)] }).priority_contacts =
      ["X", "Z", "Y", "W"] := by
  refine ⟨sortByCountDesc_perm, sortByCountDesc_sorted, fun st => ?_, rfl, rfl⟩
  simp only [updatePriorityContacts, List.length_take, List.length_map]
  omega

/-- C6: Phase-transition resets.  For every phase-update event whose
synchronization succeeds and whose resolved phase differs from the
session's current phase, the handler proceeds from the reset state —
which carries the new phase, `orders_submitted = false`,
`current_negotiation_round = 0`, `negotiation_complete = false` —
regardless of the preceding phase and of the new phase's type (the resets
happen before the movement-phase test). -/
theorem C6_phase_transition_resets (syncResult : Except Unit Unit)
    (new_phase : String) (negotiate checkOrders : BotState → BotState)
    (st : BotState) (hsync : syncResult = .ok ())
    (hne : some new_phase ≠ st.current_phase) :
    handlePhaseUpdate syncResult new_phase negotiate checkOrders st =
      .ok (checkOrders (if isMovementPhase new_phase then
        negotiate (phaseResetState st new_phase)
      else phaseResetState st new_phase)) ∧
    (phaseResetState st new_phase).current_phase = some new_phase ∧
    (phaseResetState st new_phase).orders_submitted = false ∧
    (phaseResetState st new_phase).current_negotiation_round = 0 ∧
    (phaseResetState st new_phase).negotiation_complete = false := by
  subst hsync
  refine ⟨?_, rfl, rfl, rfl, rfl⟩
  simp [handlePhaseUpdate, hne]

/-- Witness for C6: the first movement phase arriving at a fresh session. -/
theorem C6_phase_transition_resets_witness :
    handlePhaseUpdate (.ok ()) "S1901M" id id {} =
      .ok (id (if isMovementPhase "S1901M" then id (phaseResetState {} "S1901M")
        else phaseResetState {} "S1901M")) ∧
    (phaseResetState ({} : BotState) "S1901M").orders_submitted = false ∧
    (phaseResetState ({} : BotState) "S1901M").negotiation_complete = false := by
  have h := C6_phase_transition_resets (.ok ()) "S1901M" id id {} rfl (by decide)
  exact ⟨h.1, h.2.2.1, h.2.2.2.2⟩

/-- C5 counterexample: with orderable locations, possible orders and a
decided order set, `_submit_orders` submits through a bare `set_orders`
call — not the circuit-breaker wrapper — and when that call raises, the
exception propagates with `orders_submitted` still false.  This refutes
both "submits the orders via the Resilience Wrapper" and "sets
ordersSubmitted = true even when the submission call fails". -/
theorem C5_orders_submission_counterexample :
    checkIfOrdersNeeded
        { orderable_locations := ["PAR"], possible_orders := ["A PAR H"],
          decision := some ["A PAR H"], wrappedSetOk := true, directSetOk := false }
        {} = .error () ∧
    checkIfOrdersNeeded
        { orderable_locations := ["PAR"], possible_orders := ["A PAR H"],
          decision := some ["A PAR H"], wrappedSetOk := true, directSetOk := true }
        {} =
      .ok ({ orders_submitted := true, waiting_for_orders := false },
        [.directSet ["A PAR H"]]) := by
  exact ⟨rfl, rfl⟩

/-- C5 amended: `_check_if_orders_needed` is idempotent (no-op once
submitted) and does nothing when there are no orderable locations; inside
`_submit_orders`, no possible orders leads to an empty submission through
the Resilience Wrapper with the flag marked once it returns; a truthy
decision is submitted with a bare unwrapped `set_orders` call and the
flag is set only when that call returns — a failing submission raises
with the flag still false; a falsy decision falls back to a wrapped empty
submission. -/
theorem C5_orders_submission_amended (env : OrdersEnv) (st : BotState) :
    (st.orders_submitted = true → checkIfOrdersNeeded env st = .ok (st, [])) ∧
    (env.orderable_locations = [] → checkIfOrdersNeeded env st = .ok (st, [])) ∧
    (st.orders_submitted = false → env.possible_orders = [] →
      env.wrappedSetOk = true →
      submitOrders env st =
        .ok ({ st with orders_submitted := true }, [.wrappedSet []])) ∧
    (∀ orders, st.orders_submitted = false → env.possible_orders ≠ [] →
      env.decision = some orders →
      (env.directSetOk = true →
        submitOrders env st =
          .ok ({ st with orders_submitted := true, waiting_for_orders := false },
            [.directSet orders])) ∧
      (env.directSetOk = false → submitOrders env st = .error ())) ∧
    (st.orders_submitted = false → env.possible_orders ≠ [] →
      env.decision = none → env.wrappedSetOk = true →
      submitOrders env st =
        .ok ({ st with orders_submitted := true, waiting_for_orders := false },
          [.wrappedSet []])) := by
  refine ⟨?_, ?_, ?_, ?_, ?_⟩
  · intro h
    simp [checkIfOrdersNeeded, h]
  · intro h
    by_cases hs : st.orders_submitted = true
    · simp [checkIfOrdersNeeded, hs]
    · simp only [Bool.not_eq_true] at hs
      simp [checkIfOrdersNeeded, hs, h]
  · intro hs hp hw
    simp [submitOrders, hs, hp, hw]
  · intro orders hs hp hd
    constructor
    · intro hdir
      simp [submitOrders, hs, hp, hd, hdir]
    · intro hdir
      simp [submitOrders, hs, hp, hd, hdir]
  · intro hs hp hd hw
    simp [submitOrders, hs, hp, hd, hw]

/-- Witness for C5 amended: a fresh state with a decided order set whose
bare submission succeeds, and the idempotent no-op once submitted. -/
theorem C5_orders_submission_amended_witness :
    submitOrders
        { orderable_locations := ["PAR"], possible_orders := ["A PAR H"],
          decision := some ["A PAR H"], wrappedSetOk := true, directSetOk := true }
        {} =
      .ok ({ ({} : BotState) with
        orders_submitted := true, waiting_for_orders := false },
        [.directSet ["A PAR H"]]) ∧
    checkIfOrdersNeeded
        { orderable_locations := ["PAR"], possible_orders := ["A PAR H"],
          decision := some ["A PAR H"], wrappedSetOk := true, directSetOk := true }
        { orders_submitted := true } =
      .ok ({ orders_submitted := true }, []) := by
  have h1 := ((C5_orders_submission_amended
    { orderable_locations := ["PAR"], possible_orders := ["A PAR H"],
      decision := some ["A PAR H"], wrappedSetOk := true, directSetOk := true }
    {}).2.2.2.1 ["A PAR H"] rfl (by decide) rfl).1 rfl
  have h2 := (C5_orders_submission_amended
    { orderable_locations := ["PAR"], possible_orders := ["A PAR H"],
      decision := some ["A PAR H"], wrappedSetOk := true, directSetOk := true }
    { orders_submitted := true }).1 rfl
  exact ⟨h1, h2⟩

/-- C9 counterexample: a game-processed event whose re-synchronization
fails (after the wrapper's retries) does not "log and continue leaving
ordersSubmitted = false": the handler aborts before the reset, so a
previously-true flag stays true and the handler does not complete
normally. -/
theorem C9_game_processed_counterexample :
    ¬((handleGameProcessed false id { orders_submitted := true }).1 = .completed ∧
      (handleGameProcessed false id
        { orders_submitted := true }).2.orders_submitted = false) := by
  decide

/-- C9 amended: when the re-synchronize inside the game-processed handler
fails, the exception escapes the handler with the state unchanged — the
orders-submitted flag keeps its previous value and the result analysis
never runs (the surrounding task machinery absorbs the exception, so the
host process survives, but the handler itself neither logs-and-continues
nor resets the flag); when the re-synchronize succeeds the handler runs
the analysis and clears `orders_submitted` and `waiting_for_orders`. -/
theorem C9_game_processed_amended (analyze : BotState → BotState)
    (st : BotState) :
    handleGameProcessed false analyze st = (.raised, st) ∧
    (handleGameProcessed true analyze st).1 = .completed ∧
    (handleGameProcessed true analyze st).2.orders_submitted = false ∧
    (handleGameProcessed true analyze st).2.waiting_for_orders = false := by
  exact ⟨rfl, rfl, rfl, rfl⟩

end AIDiplomacy
